import Mathlib

/-!
Verification of the urlographer routing layer: a shallow embedding of its
path canonicalization, digest-keyed mapping cache, record persistence and
routing resolver, together with theorems settling the specified properties.
The repository ships only its test suite; every operational definition below
is therefore modelled from the specification document, faithful to its words,
and checked against the concrete expectations recorded in the test suite.
-/

namespace Urlographer

/-- Modelled from the spec: the missing `utils.canonicalize_path` lower-cases
the path.  Case folding is ASCII: code points 65-90 shift to 97-122, every
other character is left unchanged. -/
def lowerChar (c : Char) : Char :=
  if 65 ≤ c.toNat ∧ c.toNat ≤ 90 then Char.ofNat (c.toNat + 32) else c

/-- Modelled from the spec: the conservative safe character set of the missing
`utils.canonicalize_path` — lower-case letters, digits and a small set of
punctuation; non-ASCII and control characters fall outside it and are removed
entirely. -/
def isSafeChar (c : Char) : Bool :=
  decide ((97 ≤ c.toNat ∧ c.toNat ≤ 122) ∨ (48 ≤ c.toNat ∧ c.toNat ≤ 57) ∨
    c = '/' ∨ c = '.' ∨ c = '-' ∨ c = '_')

/-- Lower-case the characters, then strip every character outside the safe
set (spec steps 1 and 2). -/
def cleanChars (l : List Char) : List Char :=
  (l.map lowerChar).filter isSafeChar

/-- Split a character list on the separator, dropping empty segments; this
realises spec step 3 (runs of separators collapse) together with the
segmentation that step 4 operates on.  The accumulator holds the current
segment reversed. -/
def segmentsAux : List Char → List Char → List (List Char)
  | [], acc => if acc = [] then [] else [acc.reverse]
  | c :: cs, acc =>
    if c = '/' then
      if acc = [] then segmentsAux cs []
      else acc.reverse :: segmentsAux cs []
    else segmentsAux cs (c :: acc)

/-- Spec step 4: resolve dot segments.  A single dot is removed, a double dot
pops the preceding segment, and a leading double dot with no parent to pop is
simply dropped (never escapes the root).  The stack holds accepted segments in
reverse order. -/
def resolveDots : List (List Char) → List (List Char) → List (List Char)
  | [], stack => stack.reverse
  | seg :: rest, stack =>
    if seg = ['.'] then resolveDots rest stack
    else if seg = ['.', '.'] then resolveDots rest stack.tail
    else resolveDots rest (seg :: stack)

/-- Rejoin segments, placing a separator before each one. -/
def renderSegs : List (List Char) → List Char
  | [] => []
  | seg :: rest => '/' :: (seg ++ renderSegs rest)

/-- Rejoin segments into an absolute path; with no segments the result is the
bare root. -/
def renderPath (segs : List (List Char)) : List Char :=
  if segs = [] then ['/'] else renderSegs segs

/-- Modelled from the spec: the missing `utils.canonicalize_path`.  Total
function on strings: lower-case, strip unsafe characters, collapse separator
runs, resolve dot segments, and return an absolute path always rooted at the
separator. -/
def canonicalize_path (s : String) : String :=
  ⟨renderPath (resolveDots (segmentsAux (cleanChars s.data) []) [])⟩

/-- Modelled from the spec: the missing `models.URLMap` record (MappingRecord).
A redirect target is an ownership reference to another record, identified at
the spec level by its (site, canonical path) key, under which records are
unique in the store; a content handler is referenced by store identity. -/
structure URLMap where
  site : String
  path : String
  status_code : Nat
  redirect : Option (String × String)
  content_map : Option Nat
  force_secure : Bool
  hexdigest : String
  id : Option Nat
  deriving DecidableEq

/-- Modelled from the spec: the missing `models.ContentMap` (ContentHandler):
a view reference by qualified name plus free-form keyword options. -/
structure ContentMap where
  view : String
  options : List (String × String)
  id : Option Nat
  deriving DecidableEq

/-- Modelled from the spec: the digest of (site, canonical path) used as the
cache key.  The concrete hash function of the missing `models` module is an
external detail; the model uses the hashed content itself, which is
content-addressed and injective. -/
def digest (site path : String) : String :=
  site ++ path

/-- Modelled from the spec: the fixed cache expiry (the missing
`models.CACHE_TIMEOUT`). -/
def CACHE_TIMEOUT : Nat := 3600

/-- Modelled from the spec: the combined state of the authoritative store,
the key-value cache (each entry carrying its TTL), the id sequences, the view
registry of the content dispatcher, and observation counters for store reads
and cache writes. -/
structure Sys where
  store : List URLMap
  cache : List (String × URLMap × Nat)
  nextId : Nat
  contentStore : List ContentMap
  nextContentId : Nat
  views : List String
  storeReads : Nat
  cacheWrites : Nat
  deriving DecidableEq

/-- Cache key for a (site, path) pair. -/
def cacheKey (site path : String) : String :=
  digest site path

/-- No-write probe of the cache: first match wins, so a fresher entry placed
at the front overwrites an older one. -/
def cacheFind (cache : List (String × URLMap × Nat)) (k : String) :
    Option (URLMap × Nat) :=
  (cache.find? (fun e => e.1 == k)).map (fun e => e.2)

/-- Authoritative store lookup by (site, canonical path); first match wins. -/
def storeFind (store : List URLMap) (site path : String) : Option URLMap :=
  store.find? (fun r => r.site == site && r.path == path)

/-- A counted store read: the lookup result together with the state whose
read counter has advanced. -/
def storeRead (σ : Sys) (site path : String) : Option URLMap × Sys :=
  (storeFind σ.store site path, { σ with storeReads := σ.storeReads + 1 })

/-- Modelled from the spec: the missing `URLMapManager.cached_get`.  A
no-write cache probe first; on hit the cached record is returned with no
store access.  On miss, one store read; a store match is written into the
cache with the fixed TTL before being returned, while a store miss yields the
not-found outcome (`none`, modelling the raised DoesNotExist) and caches
nothing. -/
def cached_get (σ : Sys) (site path : String) : Option URLMap × Sys :=
  match cacheFind σ.cache (cacheKey site path) with
  | some (r, _) => (some r, σ)
  | none =>
    match storeRead σ site path with
    | (some r, σ1) =>
      (some r, { σ1 with
                  cache := (cacheKey site path, r, CACHE_TIMEOUT) :: σ1.cache,
                  cacheWrites := σ1.cacheWrites + 1 })
    | (none, σ1) => (none, σ1)

/-- The redirect status codes. -/
def isRedirectCode (n : Nat) : Bool :=
  n == 301 || n == 302

/-- Modelled from the spec: the redirect invariant checked at write time — a
redirect status requires a target that is neither the record itself nor a
record whose own status is a redirect, and a non-redirect status must carry
no target. -/
def validForSave (store : List URLMap) (u : URLMap) : Bool :=
  if isRedirectCode u.status_code then
    match u.redirect with
    | none => false
    | some t =>
      !(t.1 == u.site && t.2 == u.path) &&
      (match storeFind store t.1 t.2 with
       | some tr => !(isRedirectCode tr.status_code)
       | none => true)
  else u.redirect.isNone

/-- The write-time failure of the redirect invariant. -/
inductive SaveError where
  | validationError
  deriving DecidableEq

/-- Modelled from the spec: the missing `URLMap.save`.  A violated redirect
invariant fails with the validation error and persists nothing; otherwise the
digest is recomputed from (site, path), an id is assigned on first save, the
record is persisted, and the cache entry for the digest is overwritten with
the new value and the fixed TTL (write-through). -/
def save (σ : Sys) (u : URLMap) : Except SaveError URLMap × Sys :=
  if validForSave σ.store u then
    let assignedId := match u.id with
      | some i => i
      | none => σ.nextId
    let u2 := { u with hexdigest := digest u.site u.path, id := some assignedId }
    (Except.ok u2,
      { σ with
          store := u2 :: σ.store,
          nextId := σ.nextId + 1,
          cache := (cacheKey u.site u.path, u2, CACHE_TIMEOUT) :: σ.cache,
          cacheWrites := σ.cacheWrites + 1 })
  else (Except.error SaveError.validationError, σ)

/-- The creation-time failure of an unresolvable view reference. -/
inductive RefError where
  | referenceError
  deriving DecidableEq

/-- Modelled from the spec: the missing `ContentMap.save`.  Validity is
checked at creation time by resolving the view reference against the
registry; an unresolvable reference fails with the reference error and
persists nothing, otherwise the record is persisted with a fresh id. -/
def contentSave (σ : Sys) (c : ContentMap) : Except RefError ContentMap × Sys :=
  if σ.views.contains c.view then
    (Except.ok { c with id := some σ.nextContentId },
      { σ with
          contentStore := { c with id := some σ.nextContentId } :: σ.contentStore,
          nextContentId := σ.nextContentId + 1 })
  else (Except.error RefError.referenceError, σ)

/-- Absolute URL from scheme flag, domain and path. -/
def urlFor (secure : Bool) (domain path : String) : String :=
  (if secure then "https" else "http") ++ "://" ++ domain ++ path

/-- The outcomes of the resolver state machine. -/
inductive RoutingDecision where
  | notFound
  | gone
  | redirectPermanent (url : String)
  | redirectTemporary (url : String)
  | serveContent (view : String) (options : List (String × String))
  | bareStatus (code : Nat)
  | internalError
  deriving DecidableEq

/-- Modelled from the spec: the missing `views.route` resolver.  Canonicalize
the raw path, look the record up through the cache; not found yields
`notFound`; a redirect status resolves one hop to the target and emits the
permanent or temporary redirect to the absolute URL built from the target's
secure flag, the site domain and the target's canonical path; otherwise a
canonical-path mismatch emits a permanent redirect to the canonical URL; a
gone status emits `gone`; a present content handler is served with its
options, and a content status with no handler yields the bare status code.
Configuration states the spec leaves to internal errors surface as
`internalError`. -/
def resolve (σ : Sys) (site rawPath : String) : RoutingDecision × Sys :=
  let canon := canonicalize_path rawPath
  match cached_get σ site canon with
  | (none, σ1) => (RoutingDecision.notFound, σ1)
  | (some rec, σ1) =>
    if isRedirectCode rec.status_code then
      match rec.redirect with
      | none => (RoutingDecision.internalError, σ1)
      | some t =>
        match storeRead σ1 t.1 t.2 with
        | (none, σ2) => (RoutingDecision.internalError, σ2)
        | (some tr, σ2) =>
          (if rec.status_code == 301 then
            RoutingDecision.redirectPermanent (urlFor tr.force_secure site tr.path)
          else
            RoutingDecision.redirectTemporary (urlFor tr.force_secure site tr.path),
           σ2)
    else if canon ≠ rawPath then
      (RoutingDecision.redirectPermanent (urlFor rec.force_secure site canon), σ1)
    else if rec.status_code == 410 then
      (RoutingDecision.gone, σ1)
    else
      match rec.content_map with
      | some cid =>
        match σ1.contentStore.find? (fun cm => cm.id == some cid) with
        | some cm => (RoutingDecision.serveContent cm.view cm.options, σ1)
        | none => (RoutingDecision.internalError, σ1)
      | none => (RoutingDecision.bareStatus rec.status_code, σ1)

/-! Concrete fixtures mirroring the states the test suite builds. -/

/-- The record at (example.com, /test_path) used by the manager tests. -/
def recTestPath : URLMap :=
  ⟨"example.com", "/test_path", 204, none, none, false,
    "example.com/test_path", some 1⟩

/-- A system with empty store and cache. -/
def sysEmptyFix : Sys :=
  ⟨[], [], 1, [], 1, [], 0, 0⟩

/-- A system whose store holds the test record but whose cache is cold. -/
def sysStoredFix : Sys :=
  ⟨[recTestPath], [], 2, [], 1, [], 0, 0⟩

/-- A system whose cache already holds the test record. -/
def sysCachedFix : Sys :=
  ⟨[recTestPath],
    [(cacheKey "example.com" "/test_path", recTestPath, CACHE_TIMEOUT)],
    2, [], 1, [], 0, 0⟩

/-- An unsaved record destined for (example.com, /test_path). -/
def recNew : URLMap :=
  ⟨"example.com", "/test_path", 204, none, none, false, "", none⟩

/-- The record as it comes back from a first save: digest recomputed, id 1. -/
def recSaved : URLMap :=
  ⟨"example.com", "/test_path", 204, none, none, false,
    "example.com/test_path", some 1⟩

/-- The system state after saving `recNew` into `sysEmptyFix`. -/
def sysAfterSave : Sys :=
  ⟨[recSaved],
    [(cacheKey "example.com" "/test_path", recSaved, CACHE_TIMEOUT)],
    2, [], 1, [], 0, 1⟩

/-- A 301 record with no redirect target. -/
def rec301NoTarget : URLMap :=
  ⟨"example.com", "/test_path", 301, none, none, false, "", none⟩

/-- A 302 record with no redirect target. -/
def rec302NoTarget : URLMap :=
  ⟨"example.com", "/test_path", 302, none, none, false, "", none⟩

/-- A 302 record redirecting to itself. -/
def rec302SelfTarget : URLMap :=
  ⟨"example.com", "/test_path", 302,
    some ("example.com", "/test_path"), none, false, "", none⟩

/-- A 200 record carrying a redirect target. -/
def rec200Target : URLMap :=
  ⟨"example.com", "/test_path", 200,
    some ("example.com", "/target"), none, false, "", none⟩

/-- The content record served at /test. -/
def cmTemplate : ContentMap :=
  ⟨"django.views.generic.base.TemplateView",
    [("template_name", "admin/base.html")], some 1⟩

/-- The record at (example.com, /test) serving content. -/
def recTestContent : URLMap :=
  ⟨"example.com", "/test", 200, none, some 1, false, "example.com/test", some 1⟩

/-- A system routing /test to content. -/
def sysContentFix : Sys :=
  ⟨[recTestContent], [], 2, [cmTemplate], 2,
    ["django.views.generic.base.TemplateView"], 0, 0⟩

/-- The redirect target record at (example.com, /target). -/
def recTarget : URLMap :=
  ⟨"example.com", "/target", 204, none, none, false,
    "example.com/target", some 1⟩

/-- A 301 record at /source pointing at /target. -/
def recSource301 : URLMap :=
  ⟨"example.com", "/source", 301, some ("example.com", "/target"), none, false,
    "example.com/source", some 2⟩

/-- A 302 record at /source pointing at /target. -/
def recSource302 : URLMap :=
  ⟨"example.com", "/source", 302, some ("example.com", "/target"), none, false,
    "example.com/source", some 2⟩

/-- A system with the permanent redirect pair. -/
def sysRedirect301 : Sys :=
  ⟨[recTarget, recSource301], [], 3, [], 1, [], 0, 0⟩

/-- A system with the temporary redirect pair. -/
def sysRedirect302 : Sys :=
  ⟨[recTarget, recSource302], [], 3, [], 1, [], 0, 0⟩

/-- A system whose view registry resolves only the route view. -/
def sysViewsFix : Sys :=
  ⟨[], [], 1, [], 1, ["urlographer.views.route"], 0, 0⟩

/-- A content record naming a resolvable view. -/
def cmRoute : ContentMap :=
  ⟨"urlographer.views.route", [], none⟩

/-- A content record naming an unresolvable view. -/
def cmNonexistent : ContentMap :=
  ⟨"urlographer.views.nonexistent", [], none⟩

/-! Helper lemmas for the canonicalizer. -/

/-- Unfolding equation of `segmentsAux` on the empty list. -/
theorem segmentsAux_nil (acc : List Char) :
    segmentsAux [] acc = if acc = [] then [] else [acc.reverse] := rfl

/-- Unfolding equation of `segmentsAux` on a cons cell. -/
theorem segmentsAux_cons (c : Char) (cs acc : List Char) :
    segmentsAux (c :: cs) acc =
      if c = '/' then
        if acc = [] then segmentsAux cs []
        else acc.reverse :: segmentsAux cs []
      else segmentsAux cs (c :: acc) := rfl

/-- Unfolding equation of `resolveDots` on a cons cell. -/
theorem resolveDots_cons (seg : List Char) (rest stack : List (List Char)) :
    resolveDots (seg :: rest) stack =
      if seg = ['.'] then resolveDots rest stack
      else if seg = ['.', '.'] then resolveDots rest stack.tail
      else resolveDots rest (seg :: stack) := rfl

/-- Unfolding equation of `renderSegs` on a cons cell. -/
theorem renderSegs_cons (seg : List Char) (rest : List (List Char)) :
    renderSegs (seg :: rest) = '/' :: (seg ++ renderSegs rest) := rfl

/-- A safe character is already lower-case, so case folding fixes it. -/
theorem lowerChar_safe (c : Char) (h : isSafeChar c = true) : lowerChar c = c := by
  unfold isSafeChar at h
  rw [decide_eq_true_eq] at h
  unfold lowerChar
  rcases h with h | h | h | h | h | h
  · exact if_neg (by omega)
  · exact if_neg (by omega)
  · subst h; exact if_neg (by decide)
  · subst h; exact if_neg (by decide)
  · subst h; exact if_neg (by decide)
  · subst h; exact if_neg (by decide)

/-- Every character surviving the cleaning pass is safe. -/
theorem cleanChars_safe (l : List Char) : ∀ c ∈ cleanChars l, isSafeChar c = true := by
  intro c hc
  unfold cleanChars at hc
  exact (List.mem_filter.mp hc).2

/-- Cleaning fixes a list of safe characters. -/
theorem cleanChars_fix : ∀ (l : List Char),
    (∀ c ∈ l, isSafeChar c = true) → cleanChars l = l := by
  intro l
  induction l with
  | nil => intro _; rfl
  | cons c t ih =>
    intro h
    have hc := h c (List.mem_cons_self c t)
    have ht : ∀ x ∈ t, isSafeChar x = true :=
      fun x hx => h x (List.mem_cons_of_mem c hx)
    have ht2 := ih ht
    unfold cleanChars at ht2 ⊢
    rw [List.map_cons, lowerChar_safe c hc, List.filter_cons_of_pos hc, ht2]

/-- Every segment produced by segmentation is nonempty and made of safe,
non-separator characters, provided the input characters are safe. -/
theorem segmentsAux_mem : ∀ (cs acc : List Char),
    (∀ c ∈ cs, isSafeChar c = true) →
    (∀ c ∈ acc, isSafeChar c = true ∧ c ≠ '/') →
    ∀ seg ∈ segmentsAux cs acc,
      seg ≠ [] ∧ ∀ c ∈ seg, isSafeChar c = true ∧ c ≠ '/' := by
  intro cs
  induction cs with
  | nil =>
    intro acc _ hacc seg hseg
    unfold segmentsAux at hseg
    by_cases h : acc = []
    · rw [if_pos h] at hseg
      simp at hseg
    · rw [if_neg h] at hseg
      simp only [List.mem_singleton] at hseg
      subst hseg
      refine ⟨by simpa using h, fun c hc => hacc c (List.mem_reverse.mp hc)⟩
  | cons a cs ih =>
    intro acc hcs hacc seg hseg
    have hcs2 : ∀ c ∈ cs, isSafeChar c = true :=
      fun c hc => hcs c (List.mem_cons_of_mem a hc)
    unfold segmentsAux at hseg
    by_cases ha : a = '/'
    · rw [if_pos ha] at hseg
      by_cases h : acc = []
      · rw [if_pos h] at hseg
        exact ih [] hcs2 (by simp) seg hseg
      · rw [if_neg h] at hseg
        rcases List.mem_cons.mp hseg with h1 | h1
        · subst h1
          refine ⟨by simpa using h, fun c hc => hacc c (List.mem_reverse.mp hc)⟩
        · exact ih [] hcs2 (by simp) seg h1
    · rw [if_neg ha] at hseg
      refine ih (a :: acc) hcs2 ?_ seg hseg
      intro c hc
      rcases List.mem_cons.mp hc with h1 | h1
      · rw [h1]
        exact ⟨hcs a (List.mem_cons_self a cs), ha⟩
      · exact hacc c h1

/-- Dot resolution only returns segments drawn from its input or its stack. -/
theorem resolveDots_mem : ∀ (l stack : List (List Char)) (seg : List Char),
    seg ∈ resolveDots l stack → seg ∈ l ∨ seg ∈ stack := by
  intro l
  induction l with
  | nil =>
    intro stack seg h
    unfold resolveDots at h
    exact Or.inr (List.mem_reverse.mp h)
  | cons s rest ih =>
    intro stack seg h
    unfold resolveDots at h
    by_cases h1 : s = ['.']
    · rw [if_pos h1] at h
      rcases ih stack seg h with h2 | h2
      · exact Or.inl (List.mem_cons_of_mem s h2)
      · exact Or.inr h2
    · rw [if_neg h1] at h
      by_cases h2 : s = ['.', '.']
      · rw [if_pos h2] at h
        rcases ih stack.tail seg h with h3 | h3
        · exact Or.inl (List.mem_cons_of_mem s h3)
        · exact Or.inr (List.mem_of_mem_tail h3)
      · rw [if_neg h2] at h
        rcases ih (s :: stack) seg h with h3 | h3
        · exact Or.inl (List.mem_cons_of_mem s h3)
        · rcases List.mem_cons.mp h3 with h4 | h4
          · exact Or.inl (List.mem_cons.mpr (Or.inl h4))
          · exact Or.inr h4

/-- Dot resolution never returns a dot segment. -/
theorem resolveDots_nodot : ∀ (l stack : List (List Char)),
    (∀ s ∈ stack, s ≠ ['.'] ∧ s ≠ ['.', '.']) →
    ∀ seg ∈ resolveDots l stack, seg ≠ ['.'] ∧ seg ≠ ['.', '.'] := by
  intro l
  induction l with
  | nil =>
    intro stack hst seg h
    unfold resolveDots at h
    exact hst seg (List.mem_reverse.mp h)
  | cons s rest ih =>
    intro stack hst seg h
    unfold resolveDots at h
    by_cases h1 : s = ['.']
    · rw [if_pos h1] at h
      exact ih stack hst seg h
    · rw [if_neg h1] at h
      by_cases h2 : s = ['.', '.']
      · rw [if_pos h2] at h
        exact ih stack.tail (fun x hx => hst x (List.mem_of_mem_tail hx)) seg h
      · rw [if_neg h2] at h
        refine ih (s :: stack) ?_ seg h
        intro x hx
        rcases List.mem_cons.mp hx with h3 | h3
        · subst h3
          exact ⟨h1, h2⟩
        · exact hst x h3

/-- Dot resolution is the identity on dot-free segment lists. -/
theorem resolveDots_id : ∀ (l stack : List (List Char)),
    (∀ s ∈ l, s ≠ ['.'] ∧ s ≠ ['.', '.']) →
    resolveDots l stack = stack.reverse ++ l := by
  intro l
  induction l with
  | nil =>
    intro stack _
    unfold resolveDots
    simp
  | cons s rest ih =>
    intro stack h
    have hs := h s (List.mem_cons_self s rest)
    unfold resolveDots
    rw [if_neg hs.1, if_neg hs.2,
      ih (s :: stack) (fun x hx => h x (List.mem_cons_of_mem s hx))]
    simp

/-- Segmentation consumes a separator-free block into the accumulator. -/
theorem segmentsAux_append : ∀ (s cs acc : List Char),
    (∀ c ∈ s, c ≠ '/') →
    segmentsAux (s ++ cs) acc = segmentsAux cs (s.reverse ++ acc) := by
  intro s
  induction s with
  | nil =>
    intro cs acc _
    simp
  | cons c s ih =>
    intro cs acc h
    have hc := h c (List.mem_cons_self c s)
    show segmentsAux (c :: (s ++ cs)) acc = _
    rw [segmentsAux_cons, if_neg hc,
      ih cs (c :: acc) (fun x hx => h x (List.mem_cons_of_mem c hx))]
    congr 1
    simp

/-- Segmenting a rendered list of nonempty separator-free segments, starting
from a nonempty accumulator, flushes the accumulator and returns the
segments. -/
theorem segmentsAux_renderSegs : ∀ (l : List (List Char)),
    (∀ seg ∈ l, seg ≠ [] ∧ ∀ c ∈ seg, c ≠ '/') →
    ∀ acc : List Char, acc ≠ [] →
    segmentsAux (renderSegs l) acc = acc.reverse :: l := by
  intro l
  induction l with
  | nil =>
    intro _ acc hacc
    show segmentsAux [] acc = _
    rw [segmentsAux_nil, if_neg hacc]
  | cons s rest ih =>
    intro h acc hacc
    have hs := h s (List.mem_cons_self s rest)
    rw [renderSegs_cons, segmentsAux_cons, if_pos rfl, if_neg hacc]
    congr 1
    rw [segmentsAux_append s (renderSegs rest) [] hs.2, List.append_nil,
      ih (fun x hx => h x (List.mem_cons_of_mem s hx)) s.reverse
        (by simpa using hs.1),
      List.reverse_reverse]

/-- Segmenting a rendered absolute path recovers the segments. -/
theorem segmentsAux_renderPath : ∀ (l : List (List Char)),
    (∀ seg ∈ l, seg ≠ [] ∧ ∀ c ∈ seg, c ≠ '/') →
    segmentsAux (renderPath l) [] = l := by
  intro l h
  unfold renderPath
  by_cases hl : l = []
  · rw [if_pos hl, hl]
    decide
  · rw [if_neg hl]
    rcases List.exists_cons_of_ne_nil hl with ⟨s, rest, rfl⟩
    have hs := h s (List.mem_cons_self s rest)
    rw [renderSegs_cons, segmentsAux_cons, if_pos rfl, if_pos rfl,
      segmentsAux_append s (renderSegs rest) [] hs.2, List.append_nil,
      segmentsAux_renderSegs rest
        (fun x hx => h x (List.mem_cons_of_mem s hx)) s.reverse
        (by simpa using hs.1),
      List.reverse_reverse]

/-- Every character of a rendered segment list is safe when the segments are
made of safe characters. -/
theorem renderSegs_safe : ∀ (l : List (List Char)),
    (∀ seg ∈ l, ∀ c ∈ seg, isSafeChar c = true) →
    ∀ c ∈ renderSegs l, isSafeChar c = true := by
  intro l
  induction l with
  | nil =>
    intro _ c hc
    simp [renderSegs] at hc
  | cons s rest ih =>
    intro h c hc
    unfold renderSegs at hc
    rcases List.mem_cons.mp hc with h1 | h1
    · subst h1
      decide
    · rcases List.mem_append.mp h1 with h2 | h2
      · exact h s (List.mem_cons_self s rest) c h2
      · exact ih (fun x hx => h x (List.mem_cons_of_mem s hx)) c h2

/-- Every character of a rendered absolute path is safe when the segments are
made of safe characters. -/
theorem renderPath_safe : ∀ (l : List (List Char)),
    (∀ seg ∈ l, ∀ c ∈ seg, isSafeChar c = true) →
    ∀ c ∈ renderPath l, isSafeChar c = true := by
  intro l h c hc
  unfold renderPath at hc
  by_cases hl : l = []
  · rw [if_pos hl] at hc
    simp only [List.mem_singleton] at hc
    subst hc
    decide
  · rw [if_neg hl] at hc
    exact renderSegs_safe l h c hc

/-- Canonicalization fixes any rendered path whose segments are nonempty,
dot-free and made of safe non-separator characters. -/
theorem canonical_fixed (l : List (List Char))
    (hseg : ∀ seg ∈ l, seg ≠ [] ∧ ∀ c ∈ seg, isSafeChar c = true ∧ c ≠ '/')
    (hdot : ∀ seg ∈ l, seg ≠ ['.'] ∧ seg ≠ ['.', '.']) :
    canonicalize_path ⟨renderPath l⟩ = ⟨renderPath l⟩ := by
  unfold canonicalize_path
  have hdata : (⟨renderPath l⟩ : String).data = renderPath l := rfl
  rw [hdata,
    cleanChars_fix _ (renderPath_safe l (fun seg hs c hc => ((hseg seg hs).2 c hc).1)),
    segmentsAux_renderPath l
      (fun seg hs => ⟨(hseg seg hs).1, fun c hc => ((hseg seg hs).2 c hc).2⟩),
    resolveDots_id l [] hdot]
  simp

/-! The claims. -/

/-- C7: path canonicalization is idempotent — for every path string `p`,
`canonicalize_path (canonicalize_path p) = canonicalize_path p`. -/
theorem claim_C7_canonicalize_idempotent (p : String) :
    canonicalize_path (canonicalize_path p) = canonicalize_path p := by
  show canonicalize_path
      ⟨renderPath (resolveDots (segmentsAux (cleanChars p.data) []) [])⟩ = _
  have hmem : ∀ seg ∈ resolveDots (segmentsAux (cleanChars p.data) []) [],
      seg ∈ segmentsAux (cleanChars p.data) [] := by
    intro seg h
    rcases resolveDots_mem _ _ _ h with h1 | h1
    · exact h1
    · simp at h1
  have hseg : ∀ seg ∈ resolveDots (segmentsAux (cleanChars p.data) []) [],
      seg ≠ [] ∧ ∀ c ∈ seg, isSafeChar c = true ∧ c ≠ '/' := by
    intro seg h
    exact segmentsAux_mem (cleanChars p.data) [] (cleanChars_safe p.data)
      (by simp) seg (hmem seg h)
  have hdot := resolveDots_nodot (segmentsAux (cleanChars p.data) []) [] (by simp)
  exact canonical_fixed _ hseg hdot

/-- C8: the reference results of `canonicalize_path` on the spec's inputs —
case folding, separator collapsing, dot-segment resolution (with and without
a parent for the leading double dot), and removal of non-ASCII characters. -/
theorem claim_C8_canonicalize_reference_values :
    canonicalize_path "/TEST" = "/test" ∧
    canonicalize_path "//t//e///s/t" = "/t/e/s/t" ∧
    canonicalize_path "./../this/./is/./only/../a/./test.html" =
      "/this/is/a/test.html" ∧
    canonicalize_path "../this/./is/./only/../a/./test.html" =
      "/this/is/a/test.html" ∧
    canonicalize_path "/te –st" = "/test" := by
  refine ⟨by decide, by decide, by decide, by decide, by decide⟩

/-- C9: `canonicalize_path` is a total Lean function, and for every input
string — with or without a leading separator, with or without a parent for a
leading double dot — the result is absolute: its first character is the
separator. -/
theorem claim_C9_canonicalize_absolute (s : String) :
    (canonicalize_path s).data.head? = some '/' := by
  show (renderPath (resolveDots (segmentsAux (cleanChars s.data) []) [])).head? =
    some '/'
  cases resolveDots (segmentsAux (cleanChars s.data) []) [] with
  | nil => rfl
  | cons a l => rfl

/-- C1: a `cached_get` whose cache probe hits returns the cached record with
the state untouched (zero store reads); one whose probe misses but whose
store lookup matches issues exactly one store read, writes the record into
the cache under the digest key with the fixed TTL, and returns it. -/
theorem claim_C1_cached_get (σ : Sys) (site path : String) (r : URLMap) :
    (∀ ttl : Nat, cacheFind σ.cache (cacheKey site path) = some (r, ttl) →
      cached_get σ site path = (some r, σ)) ∧
    (cacheFind σ.cache (cacheKey site path) = none →
      storeFind σ.store site path = some r →
      cached_get σ site path =
        (some r,
          { σ with
              storeReads := σ.storeReads + 1,
              cache := (cacheKey site path, r, CACHE_TIMEOUT) :: σ.cache,
              cacheWrites := σ.cacheWrites + 1 })) := by
  constructor
  · intro ttl h
    unfold cached_get
    rw [h]
  · intro hc hs
    unfold cached_get storeRead
    rw [hc, hs]

/-- C1 witness: on a concrete warm cache the probe hits and nothing else is
touched; on a concrete cold cache with the record in the store, exactly one
store read happens and the record is cached with the fixed TTL. -/
theorem claim_C1_cached_get_witness :
    cached_get sysCachedFix "example.com" "/test_path" =
      (some recTestPath, sysCachedFix) ∧
    cached_get sysStoredFix "example.com" "/test_path" =
      (some recTestPath,
        { sysStoredFix with
            storeReads := sysStoredFix.storeReads + 1,
            cache := (cacheKey "example.com" "/test_path", recTestPath,
              CACHE_TIMEOUT) :: sysStoredFix.cache,
            cacheWrites := sysStoredFix.cacheWrites + 1 }) := by
  refine ⟨(claim_C1_cached_get sysCachedFix "example.com" "/test_path"
      recTestPath).1 CACHE_TIMEOUT (by decide),
    (claim_C1_cached_get sysStoredFix "example.com" "/test_path"
      recTestPath).2 (by decide) (by decide)⟩

/-- C2: when neither the cache nor the store has a matching record,
`cached_get` yields the not-found outcome after exactly one store read, and
the cache is left exactly as it was — absence is never cached. -/
theorem claim_C2_not_found_never_cached (σ : Sys) (site path : String)
    (hc : cacheFind σ.cache (cacheKey site path) = none)
    (hs : storeFind σ.store site path = none) :
    cached_get σ site path = (none, { σ with storeReads := σ.storeReads + 1 }) ∧
    ((cached_get σ site path).2).cache = σ.cache ∧
    ((cached_get σ site path).2).cacheWrites = σ.cacheWrites := by
  have h : cached_get σ site path =
      (none, { σ with storeReads := σ.storeReads + 1 }) := by
    unfold cached_get storeRead
    rw [hc, hs]
  exact ⟨h, by rw [h], by rw [h]⟩

/-- C2 witness: the concrete empty system yields not-found for /404 and its
cache stays empty. -/
theorem claim_C2_not_found_never_cached_witness :
    cached_get sysEmptyFix "example.com" "/404" =
      (none, { sysEmptyFix with storeReads := sysEmptyFix.storeReads + 1 }) ∧
    ((cached_get sysEmptyFix "example.com" "/404").2).cache =
      sysEmptyFix.cache ∧
    ((cached_get sysEmptyFix "example.com" "/404").2).cacheWrites =
      sysEmptyFix.cacheWrites :=
  claim_C2_not_found_never_cached sysEmptyFix "example.com" "/404"
    (by decide) (by decide)

/-- C3: every successful save recomputes the digest from (site, path) and
synchronously writes the saved record into the cache under the digest key
with the fixed TTL, so an immediately-subsequent `cached_get` for that key
returns the new value with the state untouched — no store round trip. -/
theorem claim_C3_save_write_through (σ : Sys) (u u2 : URLMap) (σ2 : Sys)
    (h : save σ u = (Except.ok u2, σ2)) :
    u2.hexdigest = digest u.site u.path ∧
    cacheFind σ2.cache (cacheKey u.site u.path) = some (u2, CACHE_TIMEOUT) ∧
    cached_get σ2 u.site u.path = (some u2, σ2) := by
  unfold save at h
  by_cases hv : validForSave σ.store u
  · rw [if_pos hv] at h
    rw [Prod.mk.injEq] at h
    obtain ⟨h1, h2⟩ := h
    injection h1 with h1
    have hfind : cacheFind σ2.cache (cacheKey u.site u.path) =
        some (u2, CACHE_TIMEOUT) := by
      rw [← h2, ← h1]
      unfold cacheFind
      rw [List.find?_cons_of_pos _ (by simp)]
      rfl
    refine ⟨by rw [← h1], hfind, ?_⟩
    unfold cached_get
    rw [hfind]
  · rw [if_neg hv] at h
    rw [Prod.mk.injEq] at h
    exact absurd h.1 (by simp)

/-- C3 witness: saving the concrete unsaved record into the empty system
persists it with digest and id recomputed, caches it under the digest key
with the fixed TTL, and the immediately-following read hits the cache. -/
theorem claim_C3_save_write_through_witness :
    save sysEmptyFix recNew = (Except.ok recSaved, sysAfterSave) ∧
    cacheFind sysAfterSave.cache (cacheKey "example.com" "/test_path") =
      some (recSaved, CACHE_TIMEOUT) ∧
    cached_get sysAfterSave "example.com" "/test_path" =
      (some recSaved, sysAfterSave) := by
  have hs : save sysEmptyFix recNew = (Except.ok recSaved, sysAfterSave) := by
    rfl
  have h := claim_C3_save_write_through sysEmptyFix recNew recSaved
    sysAfterSave hs
  exact ⟨hs, h.2.1, h.2.2⟩

/-- C4: saving a record that violates the redirect invariant fails with the
validation error and persists nothing — a 301/302 status with no target, a
self-redirect, and a non-redirect status carrying a target all fail, the
state coming back unchanged. -/
theorem claim_C4_save_invalid_redirect (σ : Sys) (u : URLMap) :
    ((u.status_code = 301 ∨ u.status_code = 302) → u.redirect = none →
      save σ u = (Except.error SaveError.validationError, σ)) ∧
    ((u.status_code = 301 ∨ u.status_code = 302) →
      u.redirect = some (u.site, u.path) →
      save σ u = (Except.error SaveError.validationError, σ)) ∧
    (¬(u.status_code = 301 ∨ u.status_code = 302) → u.redirect ≠ none →
      save σ u = (Except.error SaveError.validationError, σ)) := by
  refine ⟨?_, ?_, ?_⟩
  · intro hst hred
    have hr : isRedirectCode u.status_code = true := by
      unfold isRedirectCode
      rcases hst with h | h <;> simp [h]
    have hv : validForSave σ.store u = false := by
      unfold validForSave
      rw [hr, hred]
      simp
    unfold save
    rw [hv]
    simp
  · intro hst hred
    have hr : isRedirectCode u.status_code = true := by
      unfold isRedirectCode
      rcases hst with h | h <;> simp [h]
    have hv : validForSave σ.store u = false := by
      unfold validForSave
      rw [hr, hred]
      simp
    unfold save
    rw [hv]
    simp
  · intro hst hred
    have hr : isRedirectCode u.status_code = false := by
      unfold isRedirectCode
      simp only [Bool.or_eq_false_iff, beq_eq_false_iff_ne, ne_eq]
      exact ⟨fun h => hst (Or.inl h), fun h => hst (Or.inr h)⟩
    have hv : validForSave σ.store u = false := by
      unfold validForSave
      rw [hr]
      simp only [Bool.false_eq_true, if_false]
      rcases hredo : u.redirect with _ | v
      · exact absurd hredo hred
      · rfl
    unfold save
    rw [hv]
    simp

/-- C4 witness: concrete saves of a 301 with no target, a 302 with no
target, a 302 self-redirect and a 200 with a target all fail with the
validation error and leave the concrete empty system unchanged. -/
theorem claim_C4_save_invalid_redirect_witness :
    save sysEmptyFix rec301NoTarget =
      (Except.error SaveError.validationError, sysEmptyFix) ∧
    save sysEmptyFix rec302NoTarget =
      (Except.error SaveError.validationError, sysEmptyFix) ∧
    save sysEmptyFix rec302SelfTarget =
      (Except.error SaveError.validationError, sysEmptyFix) ∧
    save sysEmptyFix rec200Target =
      (Except.error SaveError.validationError, sysEmptyFix) := by
  refine ⟨(claim_C4_save_invalid_redirect sysEmptyFix rec301NoTarget).1
      (Or.inl (by decide)) (by decide),
    (claim_C4_save_invalid_redirect sysEmptyFix rec302NoTarget).1
      (Or.inr (by decide)) (by decide),
    (claim_C4_save_invalid_redirect sysEmptyFix rec302SelfTarget).2.1
      (Or.inr (by decide)) (by decide),
    (claim_C4_save_invalid_redirect sysEmptyFix rec200Target).2.2
      (by decide) (by decide)⟩

/-- C10: saving a content record whose view reference does not resolve in
the registry fails with the reference error and persists nothing, while
saving one whose view resolves succeeds and assigns the next id. -/
theorem claim_C10_content_save (σ : Sys) (c : ContentMap) :
    (σ.views.contains c.view = false →
      contentSave σ c = (Except.error RefError.referenceError, σ)) ∧
    (σ.views.contains c.view = true →
      contentSave σ c =
        (Except.ok { c with id := some σ.nextContentId },
          { σ with
              contentStore :=
                { c with id := some σ.nextContentId } :: σ.contentStore,
              nextContentId := σ.nextContentId + 1 })) := by
  constructor
  · intro h
    unfold contentSave
    rw [h]
    simp
  · intro h
    unfold contentSave
    rw [h]
    simp

/-- C10 witness: against the concrete registry holding only the route view,
saving the nonexistent-view record fails with the reference error and
changes nothing, and saving the route-view record succeeds with id 1. -/
theorem claim_C10_content_save_witness :
    contentSave sysViewsFix cmNonexistent =
      (Except.error RefError.referenceError, sysViewsFix) ∧
    contentSave sysViewsFix cmRoute =
      (Except.ok { cmRoute with id := some sysViewsFix.nextContentId },
        { sysViewsFix with
            contentStore := { cmRoute with
              id := some sysViewsFix.nextContentId } :: sysViewsFix.contentStore,
            nextContentId := sysViewsFix.nextContentId + 1 }) :=
  ⟨(claim_C10_content_save sysViewsFix cmNonexistent).1 (by decide),
    (claim_C10_content_save sysViewsFix cmRoute).2 (by decide)⟩

/-- C5: when the canonicalized path differs from the raw path and the lookup
finds a record with a non-redirect status, resolution emits the permanent
redirect to the canonical URL built from the record's secure flag, the site
and the canonical path — independent of the record's own status and before
any content dispatch. -/
theorem claim_C5_canonical_mismatch_redirect (σ : Sys) (site rawPath : String)
    (rec : URLMap)
    (hne : canonicalize_path rawPath ≠ rawPath)
    (hget : (cached_get σ site (canonicalize_path rawPath)).1 = some rec)
    (hnr : isRedirectCode rec.status_code = false) :
    (resolve σ site rawPath).1 =
      RoutingDecision.redirectPermanent
        (urlFor rec.force_secure site (canonicalize_path rawPath)) := by
  rcases hcg : cached_get σ site (canonicalize_path rawPath) with ⟨a, σ1⟩
  rw [hcg] at hget
  have ha : a = some rec := hget
  subst ha
  simp only [resolve]
  rw [hcg]
  simp only [hnr, Bool.false_eq_true, if_false]
  rw [if_pos hne]

/-- C5 witness: in the concrete system mapping /test to a 200 content
record, resolving the raw path /TEST yields the permanent redirect to the
canonical URL, before any content dispatch. -/
theorem claim_C5_canonical_mismatch_redirect_witness :
    (resolve sysContentFix "example.com" "/TEST").1 =
      RoutingDecision.redirectPermanent "http://example.com/test" :=
  claim_C5_canonical_mismatch_redirect sysContentFix "example.com" "/TEST"
    recTestContent (by decide) (by decide) (by decide)

/-- C6: a found record with status 301 or 302 resolves exactly one hop to
its redirect target, and the payload URL is the absolute URL built from the
target's secure flag, the site domain and the target's canonical path, with
the permanent or temporary outcome matching the status. -/
theorem claim_C6_redirect_resolution (σ : Sys) (site rawPath : String)
    (rec tr : URLMap) (ts tp : String)
    (hget : (cached_get σ site (canonicalize_path rawPath)).1 = some rec)
    (hred : rec.redirect = some (ts, tp))
    (htr : storeFind ((cached_get σ site (canonicalize_path rawPath)).2).store
      ts tp = some tr) :
    (rec.status_code = 301 → (resolve σ site rawPath).1 =
      RoutingDecision.redirectPermanent (urlFor tr.force_secure site tr.path)) ∧
    (rec.status_code = 302 → (resolve σ site rawPath).1 =
      RoutingDecision.redirectTemporary (urlFor tr.force_secure site tr.path)) := by
  rcases hcg : cached_get σ site (canonicalize_path rawPath) with ⟨a, σ1⟩
  rw [hcg] at hget htr
  have ha : a = some rec := hget
  subst ha
  have htr2 : storeFind σ1.store ts tp = some tr := htr
  constructor <;> intro hst
  · simp only [resolve]
    rw [hcg]
    simp only [hst, isRedirectCode, hred]
    unfold storeRead
    rw [htr2]
    simp
  · simp only [resolve]
    rw [hcg]
    simp only [hst, isRedirectCode, hred]
    unfold storeRead
    rw [htr2]
    simp

/-- C6 witness: in the concrete systems where /source is a 301 respectively
302 record pointing at the /target record, resolution yields the permanent
respectively temporary redirect to the target's absolute URL. -/
theorem claim_C6_redirect_resolution_witness :
    (resolve sysRedirect301 "example.com" "/source").1 =
      RoutingDecision.redirectPermanent "http://example.com/target" ∧
    (resolve sysRedirect302 "example.com" "/source").1 =
      RoutingDecision.redirectTemporary "http://example.com/target" :=
  ⟨(claim_C6_redirect_resolution sysRedirect301 "example.com" "/source"
      recSource301 recTarget "example.com" "/target"
      (by decide) (by decide) (by decide)).1 (by decide),
    (claim_C6_redirect_resolution sysRedirect302 "example.com" "/source"
      recSource302 recTarget "example.com" "/target"
      (by decide) (by decide) (by decide)).2 (by decide)⟩

end Urlographer
